import Mathlib

/-!
Verification development for the nano-code repository.

The repository contains two generations of code:

* `src/nano_code/agent.py` / `openai_client.py` — a `CodingAgent` with
  `analyze_file`, `generate_code` and `chat`, which falls back to a basic
  (non-model) path when the OpenAI client is unavailable or errors.  These
  are embedded below under their source names (`CodingAgent.analyze_file`,
  `CodingAgent.generate_code`, ...).

* the sentinel-based agent loop described by `spec.md` and exercised by
  `src/tests/test_agent.py` (which imports `nano_code.local.LocalEnvironment`
  and a scripted model client).  The loop implementation itself is not under
  `src/`; following the task rules those parts are modelled from the spec,
  each such definition carrying a `Modelled from the spec:` doc comment.

Python strings are modelled as Lean `String`s, Python `None`/falsiness of
strings via `Option String` with `""` falsy, machine-independent integers as
`Nat`/`Int`, and the decimal `accumulated_cost` as `ℚ`.
-/

namespace NanoCode

/-- Characters counted by the regex class `\w` (ASCII fragment, which covers
every input exercised here). -/
def isWordChar (c : Char) : Bool := c.isAlphanum || c = '_'

/-- Python `str.lower()` (ASCII: only `A`–`Z` change, matching every input
exercised here). -/
def lowerStr (s : String) : String := String.mk (s.data.map Char.toLower)

/-- Substring search over character lists: `containsSub pat l` is true when
`pat` occurs contiguously inside `l`.  Used to embed Python's `in` operator
on strings. -/
def containsSub (pat : List Char) : List Char → Bool
  | [] => pat.isEmpty
  | c :: rest => pat.isPrefixOf (c :: rest) || containsSub pat rest

/-- Python `needle in haystack` for strings. -/
def strContains (haystack needle : String) : Bool :=
  containsSub needle.data haystack.data

/-- The characters after the first occurrence of `pat` in the list, or `none`
when `pat` does not occur. -/
def afterFirst (pat : List Char) : List Char → Option (List Char)
  | [] => if pat.isEmpty then some [] else none
  | c :: rest =>
      if pat.isPrefixOf (c :: rest) then some ((c :: rest).drop pat.length)
      else afterFirst pat rest

theorem containsSub_iff (pat l : List Char) :
    containsSub pat l = true ↔ ∃ pre post, l = pre ++ pat ++ post := by
  induction l with
  | nil =>
      simp only [containsSub, List.isEmpty_iff]
      constructor
      · intro h
        exact ⟨[], [], by simp [h]⟩
      · rintro ⟨pre, post, h⟩
        rcases List.append_eq_nil.mp ((List.append_eq_nil).mp h.symm).1 with ⟨-, h2⟩
        exact h2
  | cons c rest ih =>
      simp only [containsSub, Bool.or_eq_true, ih]
      constructor
      · rintro (hpre | ⟨pre, post, hsplit⟩)
        · rcases List.isPrefixOf_iff_prefix.mp hpre with ⟨post, hpost⟩
          exact ⟨[], post, by simp [hpost.symm]⟩
        · exact ⟨c :: pre, post, by simp [hsplit]⟩
      · rintro ⟨pre, post, hsplit⟩
        cases pre with
        | nil =>
            left
            exact List.isPrefixOf_iff_prefix.mpr ⟨post, by simpa using hsplit.symm⟩
        | cons d pre' =>
            right
            refine ⟨pre', post, ?_⟩
            simpa using (List.cons_eq_cons.mp hsplit).2

/-! ## Data model (spec §3) -/

/-- Message roles (spec §3). -/
inductive Role where
  | system
  | user
  | assistant
  | observation
deriving DecidableEq

/-- A conversation message (spec §3). -/
structure Message where
  role : Role
  content : String
deriving DecidableEq

/-- An executable action extracted from a model reply (spec §3). -/
structure Action where
  command : String
  working_directory : String
  raw_span : String
deriving DecidableEq

/-- The result of executing one shell command (spec §3). -/
structure ExecutionResult where
  stdout : String
  stderr : String
  exit_code : Int
  truncated : Bool
deriving DecidableEq

/-- Model-port telemetry (spec §3); `accumulated_cost` is a decimal, modelled
as a rational. -/
structure Telemetry where
  calls_made : Nat
  accumulated_cost : ℚ
  model_identifier : String
deriving DecidableEq

/-- Final outcome of one run (spec §3). -/
structure RunOutcome where
  exit_status : String
  result : String
deriving DecidableEq

/-! ## Completion detector (spec §4.5)

Modelled from the spec: the completion-detector implementation is not under
`src/`; `src/tests/test_agent.py` fixes the sentinel literal and the expected
result extraction. -/

/-- The fixed sentinel token, taken verbatim from `src/tests/test_agent.py`. -/
def SENTINEL : String := "COMPLETE_TASK_AND_SUBMIT_FINAL_OUTPUT"

/-- Modelled from the spec: `is_complete` is true iff the fixed sentinel
token appears verbatim in `stdout` (spec §4.5). -/
def is_complete (res : ExecutionResult) : Bool :=
  strContains res.stdout SENTINEL

/-- Drop a single leading newline, the one that terminates the sentinel's
line in the command output. -/
def dropLeadingNewline : List Char → List Char
  | '\n' :: rest => rest
  | l => l

/-- Modelled from the spec: the submitted result is the text of `stdout`
after the first occurrence of the sentinel, without the newline that closes
the sentinel's line (spec §4.5 worked example and the expected value in
`src/tests/test_agent.py`). -/
def submissionResult (stdout : String) : String :=
  match afterFirst SENTINEL.data stdout.data with
  | some rest => String.mk (dropLeadingNewline rest)
  | none => ""

/-! ## Action extractor (spec §4.3)

Modelled from the spec: the extractor implementation is not under `src/`.
A model reply is modelled as its sequence of plain-text segments and fenced
shell blocks; `render` recovers the literal reply text the model produced
(the fence syntax is the ```bash fence used in `src/tests/test_agent.py`). -/

/-- One segment of a model reply: free text, or one fenced shell block
carrying its command. -/
inductive ReplyPart where
  | text (s : String)
  | shell (cmd : String)
deriving DecidableEq

/-- The literal text of a fenced shell block holding `cmd`. -/
def fencedSpan (cmd : String) : String := "```bash\n" ++ cmd ++ "\n```"

/-- The literal reply text the model produced. -/
def render : List ReplyPart → String
  | [] => ""
  | .text s :: rest => s ++ render rest
  | .shell cmd :: rest => fencedSpan cmd ++ render rest

/-- The commands of the fenced shell blocks of a reply, in order. -/
def shellCommands (parts : List ReplyPart) : List String :=
  parts.filterMap fun p =>
    match p with
    | .shell cmd => some cmd
    | .text _ => none

/-- Result of extraction: the visible thought text, at most one action, and
a warning annotation when extra fenced blocks were ignored. -/
structure Extraction where
  thought : String
  action : Option Action
  warning : Bool
deriving DecidableEq

/-- Modelled from the spec: zero fenced shell blocks yield `action = none`
with the whole reply as `thought`; otherwise the first block becomes the
action (command verbatim, `working_directory` defaulting to the configured
project root, `raw_span` the exact fenced substring), and a warning is
attached when further blocks were ignored (spec §4.3). -/
def extract (root : String) (parts : List ReplyPart) : Extraction :=
  match shellCommands parts with
  | [] => ⟨render parts, none, false⟩
  | cmd :: rest => ⟨render parts, some ⟨cmd, root, fencedSpan cmd⟩, !rest.isEmpty⟩

/-! ## Environment port (spec §4.2)

Modelled from the spec: `nano_code.local.LocalEnvironment` (imported by the
test) is not under `src/`.  The underlying operating-system interaction is
abstracted as a `ProcOutcome`: either the process completed with captured
streams and an exit code, or execution could not be attempted at all. -/

/-- What the operating system did with one command: completion (any exit
code) or a spawn-level failure (invalid working directory, sandbox
unavailable). -/
inductive ProcOutcome where
  | completed (stdout stderr : String) (exit_code : Int)
  | spawnFailure (msg : String)
deriving DecidableEq

/-- Truncate captured text at the size ceiling, reporting whether truncation
happened. -/
def truncateText (limit : Nat) (s : String) : String × Bool :=
  if limit < s.data.length then (String.mk (s.data.take limit), true) else (s, false)

/-- Bound both captured streams by the ceiling and record truncation. -/
def boundedResult (limit : Nat) (out err : String) (code : Int) : ExecutionResult :=
  ⟨(truncateText limit out).1, (truncateText limit err).1, code,
    (truncateText limit out).2 || (truncateText limit err).2⟩

/-- Modelled from the spec: the environment port returns an ordinary
`ExecutionResult` for any completed process (non-zero exit codes included),
bounded by the size ceiling, and fails only when execution could not be
attempted (spec §4.2). -/
def Environment.execute (limit : Nat) : ProcOutcome → Except String ExecutionResult
  | .completed out err code => .ok (boundedResult limit out err code)
  | .spawnFailure msg => .error msg

/-! ## Agent loop (spec §4.6)

Modelled from the spec: the loop implementation is not under `src/`.  The
model port is scripted as a list of steps (a reply with its charged cost, or
a remote failure), mirroring the scripted `OpenAIClient(outputs=[...])` of
`src/tests/test_agent.py`; the confirmation gate is scripted as a list of
operator decisions; the environment port is an arbitrary function from
`(command, working_directory)` to an outcome. -/

/-- One scripted model-port step: a reply (with the non-negative cost the
provider charges for the completed exchange) or a remote failure carrying
its error message. -/
inductive ModelStep where
  | reply (parts : List ReplyPart) (cost : ℚ)
  | failure (msg : String)
deriving DecidableEq

/-- Is this scripted step a successful reply? -/
def ModelStep.isReply : ModelStep → Bool
  | .reply _ _ => true
  | .failure _ => false

/-- The cost charged by a scripted step (a failed exchange charges nothing). -/
def ModelStep.stepCost : ModelStep → ℚ
  | .reply _ c => c
  | .failure _ => 0

/-- One confirmation-gate decision (spec §4.4): accept, decline, or
interrupt the whole run. -/
inductive Decision where
  | accept
  | decline
  | interrupt
deriving DecidableEq

/-- What the environment port reports for one execution attempt. -/
inductive EnvOutcome where
  | ok (res : ExecutionResult)
  | failure (msg : String)
deriving DecidableEq

/-- The environment port as seen by the loop: command and working directory
in, outcome out. -/
def EnvFun : Type := String → String → EnvOutcome

/-- Loop configuration: the turn budget (maximum number of `AWAITING_REPLY`
entries), whether the confirmation gate is enabled (disabled = auto-accept,
spec §4.4), and the project root used as the default working directory. -/
structure Config where
  max_turns : Nat
  confirm_gate : Bool
  root : String
deriving DecidableEq

/-- The loop's full state: the owned conversation, the model port's
telemetry, the unconsumed model and gate scripts, and the last observed
thought text (used as the result of `Exhausted` and `Cancelled` exits). -/
structure LoopState where
  messages : List Message
  telemetry : Telemetry
  modelScript : List ModelStep
  gateScript : List Decision
  lastThought : String
deriving DecidableEq

/-- Result of one turn: continue at `AWAITING_REPLY` with a new state, or
terminate with the final state and outcome. -/
inductive StepResult where
  | cont (st : LoopState)
  | done (st : LoopState) (outcome : RunOutcome)
deriving DecidableEq

/-- The state carried by a step result. -/
def StepResult.state : StepResult → LoopState
  | .cont st => st
  | .done st _ => st

/-- Append one message at the end of the conversation. -/
def appendMsg (st : LoopState) (m : Message) : LoopState :=
  { st with messages := st.messages ++ [m] }

/-- Charge one successful model call: `calls_made` up by exactly one,
`accumulated_cost` up by the charged amount (spec §4.1). -/
def bumpTelemetry (t : Telemetry) (c : ℚ) : Telemetry :=
  ⟨t.calls_made + 1, t.accumulated_cost + c, t.model_identifier⟩

/-- Record a successful model reply: append the assistant message, charge
telemetry, consume the script step. -/
def recordReply (st : LoopState) (parts : List ReplyPart) (c : ℚ)
    (rest : List ModelStep) : LoopState :=
  { st with
    messages := st.messages ++ [⟨.assistant, render parts⟩],
    telemetry := bumpTelemetry st.telemetry c,
    modelScript := rest }

/-- The corrective observation injected when a reply carries no action
(spec §4.6 step 3). -/
def noActionObservation : Message :=
  ⟨.observation,
    "no command found; you must run a command or use the submit command with the sentinel"⟩

/-- The synthetic observation injected when the operator declines
(spec §4.4, §4.6 step 4). -/
def declineObservation : Message :=
  ⟨.observation, "The user declined to execute the command."⟩

/-- The observation recording an execution result (spec §4.6 step 6),
warning the model when output was truncated. -/
def observationOf (res : ExecutionResult) : Message :=
  ⟨.observation,
    (if res.truncated then "warning: output truncated\n" else "")
      ++ "exit code: " ++ toString res.exit_code
      ++ "\nstdout:\n" ++ res.stdout
      ++ "\nstderr:\n" ++ res.stderr⟩

/-- Pop the next gate decision; a disabled gate auto-accepts without
consuming anything, and an exhausted script accepts (spec §4.4). -/
def popGate (cfg : Config) (st : LoopState) : Decision × LoopState :=
  if cfg.confirm_gate then
    match st.gateScript with
    | [] => (.accept, st)
    | d :: ds => (d, { st with gateScript := ds })
  else (.accept, st)

/-- `EXECUTING` and `OBSERVING` (spec §4.6 steps 5–6): run the action; a
sandbox-level failure is terminal `EnvironmentError`; a sentinel match is
terminal `Submitted` with the post-sentinel text; otherwise append the
observation and continue. -/
def execPhase (env : EnvFun) (st : LoopState) (act : Action) : StepResult :=
  match env act.command act.working_directory with
  | .failure msg => .done st ⟨"EnvironmentError", msg⟩
  | .ok res =>
      if is_complete res then .done st ⟨"Submitted", submissionResult res.stdout⟩
      else .cont (appendMsg st (observationOf res))

/-- `PENDING_CONFIRM` (spec §4.6 step 4): decline appends the synthetic
observation and continues; interrupt is terminal `Cancelled`; accept
executes. -/
def confirmPhase (env : EnvFun) (cfg : Config) (st : LoopState) (act : Action) :
    StepResult :=
  match popGate cfg st with
  | (.decline, st') => .cont (appendMsg st' declineObservation)
  | (.interrupt, st') => .done st' ⟨"Cancelled", st'.lastThought⟩
  | (.accept, st') => execPhase env st' act

/-- `EXTRACTING` (spec §4.6 step 3): no action appends the corrective
observation and continues; an action goes to the confirmation gate. -/
def extractPhase (env : EnvFun) (cfg : Config) (st : LoopState)
    (parts : List ReplyPart) : StepResult :=
  match extract cfg.root parts with
  | ⟨thought, none, _⟩ =>
      .cont (appendMsg { st with lastThought := thought } noActionObservation)
  | ⟨thought, some act, _⟩ =>
      confirmPhase env cfg { st with lastThought := thought } act

/-- One full turn from `AWAITING_REPLY` (spec §4.6 step 2 onward): a model
failure (or an empty script, i.e. no completable exchange) is terminal
`ModelError` with nothing appended; a reply is recorded and processed. -/
def stepTurn (env : EnvFun) (cfg : Config) (st : LoopState) : StepResult :=
  match st.modelScript with
  | [] => .done st ⟨"ModelError", "the model produced no reply"⟩
  | .failure msg :: rest =>
      .done { st with modelScript := rest } ⟨"ModelError", msg⟩
  | .reply parts c :: rest =>
      extractPhase env cfg (recordReply st parts c rest) parts

/-- Drive the loop for at most `fuel` entries of `AWAITING_REPLY`; running
out of budget is terminal `Exhausted` with the last observed thought text
(spec §4.6 step 7). -/
def runFrom (env : EnvFun) (cfg : Config) : Nat → LoopState → LoopState × RunOutcome
  | 0, st => (st, ⟨"Exhausted", st.lastThought⟩)
  | fuel + 1, st =>
      match stepTurn env cfg st with
      | .done st' outcome => (st', outcome)
      | .cont st' => runFrom env cfg fuel st'

/-- The default model identifier, from `src/nano_code/openai_client.py`. -/
def defaultModelId : String := "gpt-5-mini"

/-- The seeded system prompt (role, tool use, sentinel protocol; spec §4.6
step 1). -/
def systemPrompt : String :=
  "You are a coding agent. Put exactly one shell command in a ```bash fence; "
    ++ "emit " ++ SENTINEL ++ " on stdout to submit the remaining output."

/-- Invocation (spec §6): seed the conversation with the system message and
the user task, then run the loop; returns the final state together with the
`(exit_status, result)` pair. -/
def run (env : EnvFun) (cfg : Config) (modelScript : List ModelStep)
    (gateScript : List Decision) (task : String) : LoopState × RunOutcome :=
  runFrom env cfg cfg.max_turns
    ⟨[⟨.system, systemPrompt⟩, ⟨.user, task⟩], ⟨0, 0, defaultModelId⟩,
      modelScript, gateScript, ""⟩

/-! ## Source embedding: `src/nano_code/openai_client.py` and
`src/nano_code/agent.py`

These definitions are translated from the source files.  Remote behaviour
(`openai` network calls) and the CPython pieces that cannot be reimplemented
(`ast.parse`, the regex scanning of `_analyze_generic`) are abstracted as
function parameters; every branch, string literal and heuristic of the
Python code is translated directly. -/

/-- Python truthiness of an optional string: `None` and `""` are falsy. -/
def truthy : Option String → Bool
  | none => false
  | some s => !s.isEmpty

/-- Python `a or b` over optional strings (returns `b` when `a` is falsy). -/
def pyOr (a b : Option String) : Option String :=
  if truthy a then a else b

/-- The state of a constructed `OpenAIClient`
(`src/nano_code/openai_client.py` lines 15–25). -/
structure OpenAIClientState where
  api_key : String
  model : String
deriving DecidableEq

/-- `OpenAIClient.__init__`: resolve the key as `api_key or
os.getenv('OPENAI_API_KEY')`; raise `ValueError` when the resolved key is
falsy, else store the key and the default model. -/
def OpenAIClient.init (api_key env_key : Option String) :
    Except String OpenAIClientState :=
  match pyOr api_key env_key with
  | some key =>
      if key.isEmpty then
        .error "OpenAI API key not found. Set OPENAI_API_KEY environment variable or pass api_key parameter."
      else .ok ⟨key, "gpt-5-mini"⟩
  | none =>
      .error "OpenAI API key not found. Set OPENAI_API_KEY environment variable or pass api_key parameter."

/-- The state of a constructed `CodingAgent`
(`src/nano_code/agent.py` lines 13–23); the static tables
(`supported_languages`, `code_templates`) are encoded in the method
definitions below. -/
structure CodingAgent where
  use_openai : Bool
  openai_client : Option OpenAIClientState
deriving DecidableEq

/-- `CodingAgent.__init__`: when `use_openai` is requested, construct the
client; a `ValueError` from the client constructor is caught, a warning is
printed, and the agent falls back to basic mode (`use_openai = False`,
`openai_client = None`). -/
def CodingAgent.init (use_openai : Bool) (api_key env_key : Option String) :
    CodingAgent :=
  if use_openai then
    match OpenAIClient.init api_key env_key with
    | .ok client => ⟨true, some client⟩
    | .error _ => ⟨false, none⟩
  else ⟨false, none⟩

/-- A file-system entry as `analyze_file` distinguishes them: missing path,
unreadable (non-UTF-8) content, or readable text. -/
inductive FileEntry where
  | missing
  | binary
  | text (content : String)
deriving DecidableEq

/-- The file system as a map from paths to entries. -/
def FileSys : Type := String → FileEntry

/-- One node yielded by `ast.walk`, restricted to the node kinds
`_analyze_python` inspects. -/
inductive PyNode where
  | func (name : String) (line : Nat) (nargs : Nat)
  | cls (name : String) (line : Nat)
  | imp (names : List String)
  | impFrom (module : Option String)
  | other
deriving DecidableEq

/-- `ast.parse` followed by `ast.walk`, abstracted: a syntax error carries
`str(e)`, success carries the walked nodes. -/
def PyParse : Type := String → Except String (List PyNode)

/-- A function entry of an analysis dict; generic entries carry no `args`
key, modelled by `args = none`. -/
structure FuncInfo where
  name : String
  line : Nat
  args : Option Nat
deriving DecidableEq

/-- A class entry of an analysis dict. -/
structure ClassInfo where
  name : String
  line : Nat
deriving DecidableEq

/-- The analysis dict built by `_analyze_python` / `_analyze_generic`. -/
structure Analysis where
  language : String
  lines : Nat
  functions : List FuncInfo
  classes : List ClassInfo
  imports : List String
  complexity : String
  issues : List String
deriving DecidableEq

/-- The abstracted regex line-scanner of `_analyze_generic`
(`src/nano_code/agent.py` lines 124–168): content and path in, analysis
out.  No claim depends on its internals, so like `ast.parse` it is a
parameter of the embedding. -/
def GenericAnalyzer : Type := String → String → Analysis

/-- The abstracted remote calls of `OpenAIClient` (`analyze_code`,
`generate_code`, both of which may raise): inputs in, reply text or an
exception message out. -/
def AiCall : Type := String → String → Except String String

/-- `len(content.splitlines())`: the number of lines, counting a final
fragment without a trailing newline and not counting a trailing empty
string (newline boundaries only). -/
def splitlinesCount (s : String) : Nat :=
  if s.data.isEmpty then 0
  else if s.data.getLast? = some '\n' then s.data.count '\n'
  else s.data.count '\n' + 1

/-- `CodingAgent._analyze_python` (`src/nano_code/agent.py` lines 79–122):
walk the tree collecting functions, classes and imports and apply the
complexity heuristic; a `SyntaxError` is recorded in `issues` instead of
propagating. -/
def CodingAgent.analyze_python (parse : PyParse) (content : String) : Analysis :=
  match parse content with
  | .error e =>
      ⟨"Python", splitlinesCount content, [], [], [], "low",
        ["Syntax error: " ++ e]⟩
  | .ok nodes =>
      let functions := nodes.filterMap fun n =>
        match n with
        | .func name line nargs => some ⟨name, line, some nargs⟩
        | _ => none
      let classes := nodes.filterMap fun n =>
        match n with
        | .cls name line => some (⟨name, line⟩ : ClassInfo)
        | _ => none
      let imports := nodes.flatMap fun n =>
        match n with
        | .imp names => names
        | .impFrom (some m) => [m]
        | _ => []
      let complexity :=
        if 10 < functions.length ∨ 5 < classes.length then "high"
        else if 3 < functions.length ∨ 1 < classes.length then "medium"
        else "low"
      ⟨"Python", splitlinesCount content, functions, classes, imports,
        complexity, []⟩

/-- The `" ({n} args)"` suffix shown when a function entry has an `args`
key. -/
def argsInfo : Option Nat → String
  | some n => " (" ++ toString n ++ " args)"
  | none => ""

/-- The five-entry display of a list section plus its overflow line
(`analysis[...][:5]` and the `"... and N more"` line). -/
def overflowLine (total : Nat) : List String :=
  if 5 < total then ["  ... and " ++ toString (total - 5) ++ " more"] else []

/-- `CodingAgent._format_analysis` (`src/nano_code/agent.py` lines
170–207): build the display lines and join them with newlines. -/
def CodingAgent.format_analysis (a : Analysis) (file_path : String) : String :=
  let result : List String :=
    ["📁 File: " ++ file_path,
     "🔤 Language: " ++ a.language,
     "📏 Lines: " ++ toString a.lines]
    ++ (if a.functions.isEmpty then [] else
          ("\n🔧 Functions (" ++ toString a.functions.length ++ "):")
            :: ((a.functions.take 5).map fun f =>
                  "  • " ++ f.name ++ " (line " ++ toString f.line ++ ")"
                    ++ argsInfo f.args)
            ++ overflowLine a.functions.length)
    ++ (if a.classes.isEmpty then [] else
          ("\n🏗️  Classes (" ++ toString a.classes.length ++ "):")
            :: ((a.classes.take 5).map fun c =>
                  "  • " ++ c.name ++ " (line " ++ toString c.line ++ ")")
            ++ overflowLine a.classes.length)
    ++ (if a.imports.isEmpty then [] else
          ("\n📦 Imports (" ++ toString a.imports.length ++ "):")
            :: ((a.imports.take 5).map fun imp => "  • " ++ imp)
            ++ overflowLine a.imports.length)
    ++ (if a.complexity ≠ "unknown" then ["\n🔍 Complexity: " ++ a.complexity] else [])
    ++ (if a.issues.isEmpty then [] else
          "\n⚠️  Issues:" :: a.issues.map fun issue => "  • " ++ issue)
  String.intercalate "\n" result

/-- The index of the last `'.'` in a list of characters, if any. -/
def lastDotIdx : List Char → Option Nat
  | [] => none
  | c :: rest =>
      match lastDotIdx rest with
      | some i => some (i + 1)
      | none => if c = '.' then some 0 else none

/-- `pathlib.Path(p).suffix`: the extension (with its dot) of the final path
component; empty when the only dot starts the name. -/
def pathSuffix (p : String) : String :=
  let name := String.mk ((p.data.reverse.takeWhile fun c => c ≠ '/').reverse)
  match lastDotIdx name.data with
  | some i => if i = 0 then "" else String.mk (name.data.drop i)
  | none => ""

/-- `path.suffix.lower().lstrip('.')` as computed by `analyze_file`. -/
def extOf (p : String) : String :=
  String.mk ((lowerStr (pathSuffix p)).data.dropWhile (· = '.'))

/-- `CodingAgent.analyze_file` (`src/nano_code/agent.py` lines 48–77):
missing path and undecodable content return their error strings; an
available OpenAI client is tried first and any exception falls back to the
basic path; the basic path dispatches on the extension through
`supported_languages` (python/py → `_analyze_python`, everything else →
`_analyze_generic`) and formats the analysis. -/
def CodingAgent.analyze_file (ag : CodingAgent) (ai : AiCall)
    (generic : GenericAnalyzer) (fs : FileSys) (parse : PyParse)
    (file_path : String) : String :=
  match fs file_path with
  | .missing => "File " ++ file_path ++ " does not exist."
  | .binary => "Cannot read " ++ file_path ++ ": not a text file or encoding issue."
  | .text content =>
      let ext := extOf file_path
      let analysis :=
        if ext = "python" ∨ ext = "py" then CodingAgent.analyze_python parse content
        else generic content file_path
      let basic := CodingAgent.format_analysis analysis file_path
      if ag.use_openai && ag.openai_client.isSome then
        match ai content file_path with
        | .ok reply => reply
        | .error _ => basic
      else basic

/-- `re.findall(r'\b\w+\b', s)`: the maximal runs of word characters, via an
accumulator of the current run (reversed). -/
def wordRunsAux : List Char → List Char → List String
  | [], acc => if acc.isEmpty then [] else [String.mk acc.reverse]
  | c :: rest, acc =>
      if isWordChar c then wordRunsAux rest (c :: acc)
      else if acc.isEmpty then wordRunsAux rest []
      else String.mk acc.reverse :: wordRunsAux rest []

/-- All word runs of a string. -/
def wordRuns (s : String) : List String := wordRunsAux s.data []

/-- Python `str.capitalize()` on an already-lowercased word: first character
uppercased, the rest lowercased. -/
def capitalize (w : String) : String :=
  match w.data with
  | [] => ""
  | c :: rest => String.mk (c.toUpper :: rest.map Char.toLower)

/-- `CodingAgent._extract_name` (`src/nano_code/agent.py` lines 250–264):
meaningful words are the word runs of the lowercased description, minus
stop words and words of length ≤ 2; classes capitalize-join the first two,
otherwise the first three are joined with underscores; with no meaningful
words the name is `my_<code_type>`. -/
def CodingAgent.extract_name (description code_type : String) : String :=
  let words := wordRuns (lowerStr description)
  let stop_words := ["a", "an", "the", "to", "for", "of", "in", "on", "at", "by", "with"]
  let meaningful_words := words.filter fun w => w ∉ stop_words ∧ 2 < w.length
  if meaningful_words.isEmpty then "my_" ++ code_type
  else if code_type = "class" then
    String.join ((meaningful_words.take 2).map capitalize)
  else
    String.intercalate "_" (meaningful_words.take 3)

/-- `CodingAgent._extract_parameters` (`src/nano_code/agent.py` lines
266–273). -/
def CodingAgent.extract_parameters (description : String) : String :=
  let lower := lowerStr description
  if strContains lower "parameter" || strContains lower "argument" then
    "param1, param2"
  else if strContains lower "input" || strContains lower "value" || strContains lower "data" then
    "input_data"
  else ""

/-- The `code_templates['python']` entries (`src/nano_code/agent.py` lines
36–40), as functions of the `format` arguments. -/
def pythonTemplate (kind name description params : String) : String :=
  if kind = "function" then
    "def " ++ name ++ "(" ++ params ++ "):\n    \"\"\"" ++ description
      ++ "\"\"\"\n    pass\n"
  else if kind = "class" then
    "class " ++ name ++ ":\n    \"\"\"" ++ description
      ++ "\"\"\"\n    \n    def __init__(self):\n        pass\n"
  else
    "#!/usr/bin/env python3\n\"\"\"" ++ description
      ++ "\"\"\"\n\ndef main():\n    pass\n\nif __name__ == \"__main__\":\n    main()\n"

/-- The `code_templates['javascript']` entries (`src/nano_code/agent.py`
lines 41–45); `\x7b`/`\x7d` are the literal braces of the source templates. -/
def javascriptTemplate (kind name description params : String) : String :=
  if kind = "function" then
    "function " ++ name ++ "(" ++ params ++ ") \x7b\n    // " ++ description
      ++ "\n    \n\x7d\n"
  else if kind = "class" then
    "class " ++ name ++ " \x7b\n    // " ++ description
      ++ "\n    constructor() \x7b\n        \n    \x7d\n\x7d\n"
  else
    "// " ++ description ++ "\n\nfunction main() \x7b\n    \n\x7d\n\nmain();\n"

/-- The template-based (non-model) part of `CodingAgent.generate_code`
(`src/nano_code/agent.py` lines 220–248): lowercase the language, reject
unsupported languages, pick the template kind and name by the keyword
heuristics, and fill the template. -/
def CodingAgent.generate_basic (description language : String) : String :=
  let language := lowerStr language
  if language ≠ "python" ∧ language ≠ "javascript" then
    "Sorry, I don't support code generation for " ++ language
      ++ " yet. Supported: python, javascript"
  else
    let description_lower := lowerStr description
    let (template_type, name) :=
      if strContains description_lower "class"
          || strContains description_lower "object"
          || strContains description_lower "struct" then
        ("class", CodingAgent.extract_name description "class")
      else if strContains description_lower "function"
          || strContains description_lower "method"
          || strContains description_lower "def" then
        ("function", CodingAgent.extract_name description "function")
      else
        ("script", "main")
    let params := CodingAgent.extract_parameters description
    if language = "python" then
      pythonTemplate template_type name description params
    else
      javascriptTemplate template_type name description params

/-- `CodingAgent.generate_code` (`src/nano_code/agent.py` lines 209–248):
an available OpenAI client is tried first and any exception falls back to
the template-based path. -/
def CodingAgent.generate_code (ag : CodingAgent) (ai : AiCall)
    (description : String) (language : String) : String :=
  if ag.use_openai && ag.openai_client.isSome then
    match ai description language with
    | .ok reply => reply
    | .error _ => CodingAgent.generate_basic description language
  else CodingAgent.generate_basic description language

/-- A model script with no scripted remote failure. -/
def noFailure (script : List ModelStep) : Prop :=
  ∀ m ∈ script, m.isReply = true

/-- A model script whose charged costs are all non-negative (the provider
charges a non-negative amount per completed exchange, spec §4.1). -/
def costsNonneg (script : List ModelStep) : Prop :=
  ∀ m ∈ script, 0 ≤ m.stepCost

/-- The five terminal `exit_status` labels (spec §4.6, §6). -/
def exitLabels : List String :=
  ["Submitted", "Exhausted", "Cancelled", "ModelError", "EnvironmentError"]

/-! ## Loop invariant lemmas -/

theorem popGate_messages (cfg : Config) (st : LoopState) :
    (popGate cfg st).2.messages = st.messages := by
  unfold popGate
  split
  · cases st.gateScript <;> rfl
  · rfl

theorem popGate_telemetry (cfg : Config) (st : LoopState) :
    (popGate cfg st).2.telemetry = st.telemetry := by
  unfold popGate
  split
  · cases st.gateScript <;> rfl
  · rfl

theorem popGate_modelScript (cfg : Config) (st : LoopState) :
    (popGate cfg st).2.modelScript = st.modelScript := by
  unfold popGate
  split
  · cases st.gateScript <;> rfl
  · rfl

theorem execPhase_state_messages (env : EnvFun) (st : LoopState) (act : Action) :
    st.messages <+: (execPhase env st act).state.messages := by
  unfold execPhase
  cases env act.command act.working_directory with
  | failure msg => exact List.prefix_refl _
  | ok res =>
      dsimp only
      split
      · exact List.prefix_refl _
      · simp [StepResult.state, appendMsg]

theorem execPhase_state_telemetry (env : EnvFun) (st : LoopState) (act : Action) :
    (execPhase env st act).state.telemetry = st.telemetry := by
  unfold execPhase
  cases env act.command act.working_directory with
  | failure msg => rfl
  | ok res =>
      dsimp only
      split <;> rfl

theorem execPhase_state_modelScript (env : EnvFun) (st : LoopState) (act : Action) :
    (execPhase env st act).state.modelScript = st.modelScript := by
  unfold execPhase
  cases env act.command act.working_directory with
  | failure msg => rfl
  | ok res =>
      dsimp only
      split <;> rfl

theorem confirmPhase_state_messages (env : EnvFun) (cfg : Config)
    (st : LoopState) (act : Action) :
    st.messages <+: (confirmPhase env cfg st act).state.messages := by
  unfold confirmPhase
  cases h : popGate cfg st with
  | mk dec st' =>
      have hm : st'.messages = st.messages := by
        have := popGate_messages cfg st
        rw [h] at this
        exact this
      cases dec with
      | decline => simp [StepResult.state, appendMsg, hm]
      | interrupt => simp [StepResult.state, hm]
      | accept =>
          have := execPhase_state_messages env st' act
          rw [hm] at this
          exact this

theorem confirmPhase_state_telemetry (env : EnvFun) (cfg : Config)
    (st : LoopState) (act : Action) :
    (confirmPhase env cfg st act).state.telemetry = st.telemetry := by
  unfold confirmPhase
  cases h : popGate cfg st with
  | mk dec st' =>
      have hm : st'.telemetry = st.telemetry := by
        have := popGate_telemetry cfg st
        rw [h] at this
        exact this
      cases dec with
      | decline => simpa [StepResult.state, appendMsg] using hm
      | interrupt => simpa [StepResult.state] using hm
      | accept => rw [execPhase_state_telemetry, hm]

theorem confirmPhase_state_modelScript (env : EnvFun) (cfg : Config)
    (st : LoopState) (act : Action) :
    (confirmPhase env cfg st act).state.modelScript = st.modelScript := by
  unfold confirmPhase
  cases h : popGate cfg st with
  | mk dec st' =>
      have hm : st'.modelScript = st.modelScript := by
        have := popGate_modelScript cfg st
        rw [h] at this
        exact this
      cases dec with
      | decline => simpa [StepResult.state, appendMsg] using hm
      | interrupt => simpa [StepResult.state] using hm
      | accept => rw [execPhase_state_modelScript, hm]

theorem extractPhase_state_messages (env : EnvFun) (cfg : Config)
    (st : LoopState) (parts : List ReplyPart) :
    st.messages <+: (extractPhase env cfg st parts).state.messages := by
  unfold extractPhase
  cases h : extract cfg.root parts with
  | mk thought action warning =>
      cases action with
      | none => simp [StepResult.state, appendMsg]
      | some act =>
          exact confirmPhase_state_messages env cfg { st with lastThought := thought } act

theorem extractPhase_state_telemetry (env : EnvFun) (cfg : Config)
    (st : LoopState) (parts : List ReplyPart) :
    (extractPhase env cfg st parts).state.telemetry = st.telemetry := by
  unfold extractPhase
  cases h : extract cfg.root parts with
  | mk thought action warning =>
      cases action with
      | none => rfl
      | some act =>
          exact confirmPhase_state_telemetry env cfg { st with lastThought := thought } act

theorem extractPhase_state_modelScript (env : EnvFun) (cfg : Config)
    (st : LoopState) (parts : List ReplyPart) :
    (extractPhase env cfg st parts).state.modelScript = st.modelScript := by
  unfold extractPhase
  cases h : extract cfg.root parts with
  | mk thought action warning =>
      cases action with
      | none => rfl
      | some act =>
          exact confirmPhase_state_modelScript env cfg { st with lastThought := thought } act

theorem mem_of_mem_tail {α : Type} {a : α} {l : List α} (h : a ∈ l.tail) :
    a ∈ l := by
  cases l with
  | nil => simp at h
  | cons b t => exact List.mem_cons_of_mem b h

theorem stepTurn_state_messages (env : EnvFun) (cfg : Config) (st : LoopState) :
    st.messages <+: (stepTurn env cfg st).state.messages := by
  unfold stepTurn
  cases hs : st.modelScript with
  | nil => exact List.prefix_refl _
  | cons head rest =>
      cases head with
      | failure msg => exact List.prefix_refl _
      | reply parts c =>
          dsimp only
          refine List.IsPrefix.trans ?_ (extractPhase_state_messages env cfg _ parts)
          simp [recordReply]

theorem stepTurn_state_calls (env : EnvFun) (cfg : Config) (st : LoopState) :
    st.telemetry.calls_made ≤ (stepTurn env cfg st).state.telemetry.calls_made := by
  unfold stepTurn
  cases hs : st.modelScript with
  | nil => exact Nat.le_refl _
  | cons head rest =>
      cases head with
      | failure msg => exact Nat.le_refl _
      | reply parts c =>
          dsimp only
          rw [extractPhase_state_telemetry]
          simp [recordReply, bumpTelemetry]

theorem stepTurn_state_script (env : EnvFun) (cfg : Config) (st : LoopState) :
    (stepTurn env cfg st).state.modelScript = st.modelScript ∨
      (stepTurn env cfg st).state.modelScript = st.modelScript.tail := by
  unfold stepTurn
  cases hs : st.modelScript with
  | nil => left; exact hs
  | cons head rest =>
      cases head with
      | failure msg => right; rfl
      | reply parts c =>
          right
          dsimp only
          rw [extractPhase_state_modelScript]
          rfl

theorem stepTurn_state_cost (env : EnvFun) (cfg : Config) (st : LoopState)
    (h : costsNonneg st.modelScript) :
    st.telemetry.accumulated_cost ≤
      (stepTurn env cfg st).state.telemetry.accumulated_cost := by
  unfold stepTurn
  cases hs : st.modelScript with
  | nil => exact le_refl _
  | cons head rest =>
      cases head with
      | failure msg => exact le_refl _
      | reply parts c =>
          dsimp only
          rw [extractPhase_state_telemetry]
          have hc : 0 ≤ c := by
            have := h (.reply parts c) (by rw [hs]; exact List.mem_cons_self _ _)
            simpa [ModelStep.stepCost] using this
          simp only [recordReply, bumpTelemetry]
          linarith

theorem costsNonneg_tail {script : List ModelStep} (h : costsNonneg script) :
    costsNonneg script.tail :=
  fun m hm => h m (mem_of_mem_tail hm)

theorem noFailure_tail {script : List ModelStep} (h : noFailure script) :
    noFailure script.tail :=
  fun m hm => h m (mem_of_mem_tail hm)

theorem runFrom_messages (env : EnvFun) (cfg : Config) (fuel : Nat)
    (st : LoopState) :
    st.messages <+: (runFrom env cfg fuel st).1.messages := by
  induction fuel generalizing st with
  | zero => exact List.prefix_refl _
  | succ n ih =>
      unfold runFrom
      cases h : stepTurn env cfg st with
      | done st' outcome =>
          have := stepTurn_state_messages env cfg st
          rw [h] at this
          exact this
      | cont st' =>
          have h1 := stepTurn_state_messages env cfg st
          rw [h] at h1
          exact List.IsPrefix.trans h1 (ih st')

theorem runFrom_calls (env : EnvFun) (cfg : Config) (fuel : Nat)
    (st : LoopState) :
    st.telemetry.calls_made ≤ (runFrom env cfg fuel st).1.telemetry.calls_made := by
  induction fuel generalizing st with
  | zero => exact Nat.le_refl _
  | succ n ih =>
      unfold runFrom
      cases h : stepTurn env cfg st with
      | done st' outcome =>
          have := stepTurn_state_calls env cfg st
          rw [h] at this
          exact this
      | cont st' =>
          have h1 := stepTurn_state_calls env cfg st
          rw [h] at h1
          exact Nat.le_trans h1 (ih st')

theorem runFrom_cost (env : EnvFun) (cfg : Config) (fuel : Nat)
    (st : LoopState) (h : costsNonneg st.modelScript) :
    st.telemetry.accumulated_cost ≤
      (runFrom env cfg fuel st).1.telemetry.accumulated_cost := by
  induction fuel generalizing st with
  | zero => exact le_refl _
  | succ n ih =>
      unfold runFrom
      cases hstep : stepTurn env cfg st with
      | done st' outcome =>
          have := stepTurn_state_cost env cfg st h
          rw [hstep] at this
          exact this
      | cont st' =>
          have h1 := stepTurn_state_cost env cfg st h
          rw [hstep] at h1
          have hscript := stepTurn_state_script env cfg st
          rw [hstep] at hscript
          simp only [StepResult.state] at hscript
          have h2 : costsNonneg st'.modelScript := by
            rcases hscript with heq | heq
            · rw [heq]; exact h
            · rw [heq]; exact costsNonneg_tail h
          exact le_trans h1 (ih st' h2)

theorem stepTurn_state_telemetry_reply (env : EnvFun) (cfg : Config)
    (st : LoopState) (parts : List ReplyPart) (c : ℚ) (rest : List ModelStep)
    (hs : st.modelScript = .reply parts c :: rest) :
    (stepTurn env cfg st).state.telemetry = bumpTelemetry st.telemetry c ∧
      (stepTurn env cfg st).state.modelScript = rest := by
  unfold stepTurn
  rw [hs]
  dsimp only
  rw [extractPhase_state_telemetry, extractPhase_state_modelScript]
  exact ⟨rfl, rfl⟩

theorem stepTurn_calls_len (env : EnvFun) (cfg : Config) (st : LoopState)
    (h : noFailure st.modelScript) :
    (stepTurn env cfg st).state.telemetry.calls_made
        + (stepTurn env cfg st).state.modelScript.length
      = st.telemetry.calls_made + st.modelScript.length := by
  cases hs : st.modelScript with
  | nil =>
      unfold stepTurn
      rw [hs]
      simp [StepResult.state, hs]
  | cons head rest =>
      cases head with
      | failure msg =>
          exfalso
          have := h (.failure msg) (by rw [hs]; exact List.mem_cons_self _ _)
          simp [ModelStep.isReply] at this
      | reply parts c =>
          obtain ⟨ht, hm⟩ := stepTurn_state_telemetry_reply env cfg st parts c rest hs
          rw [ht, hm]
          simp [bumpTelemetry]
          omega

theorem runFrom_calls_len (env : EnvFun) (cfg : Config) (fuel : Nat)
    (st : LoopState) (h : noFailure st.modelScript) :
    (runFrom env cfg fuel st).1.telemetry.calls_made
        + (runFrom env cfg fuel st).1.modelScript.length
      = st.telemetry.calls_made + st.modelScript.length := by
  induction fuel generalizing st with
  | zero => rfl
  | succ n ih =>
      unfold runFrom
      cases hstep : stepTurn env cfg st with
      | done st' outcome =>
          have := stepTurn_calls_len env cfg st h
          rw [hstep] at this
          exact this
      | cont st' =>
          have h1 := stepTurn_calls_len env cfg st h
          rw [hstep] at h1
          simp only [StepResult.state] at h1
          have hscript := stepTurn_state_script env cfg st
          rw [hstep] at hscript
          simp only [StepResult.state] at hscript
          have h2 : noFailure st'.modelScript := by
            rcases hscript with heq | heq
            · rw [heq]; exact h
            · rw [heq]; exact noFailure_tail h
          dsimp only
          rw [ih st' h2, h1]

theorem execPhase_done_label (env : EnvFun) (st : LoopState) (act : Action)
    (st' : LoopState) (outcome : RunOutcome)
    (h : execPhase env st act = .done st' outcome) :
    outcome.exit_status ∈ exitLabels := by
  unfold execPhase at h
  cases henv : env act.command act.working_directory with
  | failure msg =>
      rw [henv] at h
      cases h
      simp [exitLabels]
  | ok res =>
      rw [henv] at h
      dsimp only at h
      split at h
      · cases h
        simp [exitLabels]
      · cases h

theorem confirmPhase_done_label (env : EnvFun) (cfg : Config) (st : LoopState)
    (act : Action) (st' : LoopState) (outcome : RunOutcome)
    (h : confirmPhase env cfg st act = .done st' outcome) :
    outcome.exit_status ∈ exitLabels := by
  unfold confirmPhase at h
  cases hpop : popGate cfg st with
  | mk dec stp =>
      rw [hpop] at h
      cases dec with
      | decline => cases h
      | interrupt =>
          cases h
          simp [exitLabels]
      | accept => exact execPhase_done_label env stp act st' outcome h

theorem extractPhase_done_label (env : EnvFun) (cfg : Config) (st : LoopState)
    (parts : List ReplyPart) (st' : LoopState) (outcome : RunOutcome)
    (h : extractPhase env cfg st parts = .done st' outcome) :
    outcome.exit_status ∈ exitLabels := by
  unfold extractPhase at h
  cases hex : extract cfg.root parts with
  | mk thought action warning =>
      rw [hex] at h
      cases action with
      | none => cases h
      | some act => exact confirmPhase_done_label env cfg _ act st' outcome h

theorem stepTurn_done_label (env : EnvFun) (cfg : Config) (st : LoopState)
    (st' : LoopState) (outcome : RunOutcome)
    (h : stepTurn env cfg st = .done st' outcome) :
    outcome.exit_status ∈ exitLabels := by
  unfold stepTurn at h
  cases hs : st.modelScript with
  | nil =>
      rw [hs] at h
      cases h
      simp [exitLabels]
  | cons head rest =>
      cases head with
      | failure msg =>
          rw [hs] at h
          cases h
          simp [exitLabels]
      | reply parts c =>
          rw [hs] at h
          exact extractPhase_done_label env cfg _ parts st' outcome h

theorem runFrom_label (env : EnvFun) (cfg : Config) (fuel : Nat)
    (st : LoopState) :
    (runFrom env cfg fuel st).2.exit_status ∈ exitLabels := by
  induction fuel generalizing st with
  | zero => simp [runFrom, exitLabels]
  | succ n ih =>
      unfold runFrom
      cases hstep : stepTurn env cfg st with
      | done st' outcome => exact stepTurn_done_label env cfg st st' outcome hstep
      | cont st' => exact ih st'

theorem extract_action_cons (root : String) (parts : List ReplyPart)
    (cmd : String) (cmds : List String)
    (hcmd : shellCommands parts = cmd :: cmds) :
    extract root parts
      = ⟨render parts, some ⟨cmd, root, fencedSpan cmd⟩, !cmds.isEmpty⟩ := by
  unfold extract
  rw [hcmd]

theorem stepTurn_exec (env : EnvFun) (cfg : Config) (st : LoopState)
    (parts : List ReplyPart) (c : ℚ) (rest : List ModelStep)
    (cmd : String) (cmds : List String) (res : ExecutionResult)
    (hs : st.modelScript = .reply parts c :: rest)
    (hcmd : shellCommands parts = cmd :: cmds)
    (hgate : cfg.confirm_gate = false)
    (henv : env cmd cfg.root = .ok res) :
    stepTurn env cfg st =
      if is_complete res then
        .done { recordReply st parts c rest with lastThought := render parts }
          ⟨"Submitted", submissionResult res.stdout⟩
      else
        .cont (appendMsg
          { recordReply st parts c rest with lastThought := render parts }
          (observationOf res)) := by
  unfold stepTurn
  rw [hs]
  dsimp only
  unfold extractPhase
  rw [extract_action_cons cfg.root parts cmd cmds hcmd]
  dsimp only
  unfold confirmPhase popGate
  rw [hgate]
  dsimp only
  unfold execPhase
  dsimp only
  rw [henv]
  simp

theorem runFrom_succ_calls (env : EnvFun) (cfg : Config) (n : Nat)
    (st : LoopState) (parts : List ReplyPart) (c : ℚ) (rest : List ModelStep)
    (hs : st.modelScript = .reply parts c :: rest) :
    st.telemetry.calls_made + 1
      ≤ (runFrom env cfg (n + 1) st).1.telemetry.calls_made := by
  unfold runFrom
  cases hstep : stepTurn env cfg st with
  | done st' outcome =>
      obtain ⟨ht, -⟩ := stepTurn_state_telemetry_reply env cfg st parts c rest hs
      rw [hstep] at ht
      simp only [StepResult.state] at ht
      simp [ht, bumpTelemetry]
  | cont st' =>
      obtain ⟨ht, -⟩ := stepTurn_state_telemetry_reply env cfg st parts c rest hs
      rw [hstep] at ht
      simp only [StepResult.state] at ht
      have := runFrom_calls env cfg n st'
      rw [ht] at this
      simpa [bumpTelemetry] using this

/-! ## Claim theorems -/

/-- C1: the completion detector returns true for an `ExecutionResult` iff the
fixed sentinel token appears verbatim in its stdout; when the run terminates
via the detector, `RunOutcome.result` is exactly the text of stdout after the
sentinel (for stdout `SENTINEL ++ "\nhello world\n"`, `is_complete` is true
and the loop submits `"hello world\n"`); when the sentinel is absent the loop
does not terminate on the observation and issues another model call. -/
theorem C1_completion_detector :
    (∀ res : ExecutionResult,
        is_complete res = true ↔
          ∃ pre post, res.stdout.data = pre ++ SENTINEL.data ++ post)
    ∧ is_complete ⟨SENTINEL ++ "\nhello world\n", "", 0, false⟩ = true
    ∧ (run (fun _ _ => .ok ⟨SENTINEL ++ "\nhello world\n", "", 0, false⟩)
          ⟨2, false, "/repo"⟩
          [.reply [.text "Finishing\n", .shell "echo done"] 0] [] "task").2
        = ⟨"Submitted", "hello world\n"⟩
    ∧ (∀ (env : EnvFun) (cfg : Config) (st : LoopState) (n : Nat)
        (parts parts2 : List ReplyPart) (c c2 : ℚ) (rest : List ModelStep)
        (cmd : String) (cmds : List String) (res : ExecutionResult),
        st.modelScript = .reply parts c :: .reply parts2 c2 :: rest →
        shellCommands parts = cmd :: cmds →
        cfg.confirm_gate = false →
        env cmd cfg.root = .ok res →
        is_complete res = false →
        (∃ st', stepTurn env cfg st = .cont st')
          ∧ st.telemetry.calls_made + 2
              ≤ (runFrom env cfg (n + 2) st).1.telemetry.calls_made) := by
  refine ⟨?_, by decide, by decide, ?_⟩
  · intro res
    exact containsSub_iff SENTINEL.data res.stdout.data
  · intro env cfg st n parts parts2 c c2 rest cmd cmds res hs hcmd hgate henv hnot
    have hstep := stepTurn_exec env cfg st parts c (.reply parts2 c2 :: rest)
      cmd cmds res hs hcmd hgate henv
    rw [hnot] at hstep
    simp only [Bool.false_eq_true, if_false] at hstep
    constructor
    · exact ⟨_, hstep⟩
    · have hrw : runFrom env cfg (n + 2) st
          = runFrom env cfg (n + 1)
              (appendMsg
                { recordReply st parts c (.reply parts2 c2 :: rest) with
                    lastThought := render parts }
                (observationOf res)) := by
        show (match stepTurn env cfg st with
              | .done st' outcome => (st', outcome)
              | .cont st' => runFrom env cfg (n + 1) st') = _
        rw [hstep]
      rw [hrw]
      have hs2 : (appendMsg
          { recordReply st parts c (.reply parts2 c2 :: rest) with
              lastThought := render parts }
          (observationOf res)).modelScript = .reply parts2 c2 :: rest := rfl
      have := runFrom_succ_calls env cfg n _ parts2 c2 rest hs2
      have hcalls : (appendMsg
          { recordReply st parts c (.reply parts2 c2 :: rest) with
              lastThought := render parts }
          (observationOf res)).telemetry.calls_made
            = st.telemetry.calls_made + 1 := rfl
      omega

/-- Witness for C1: a sentinel-free observation at a concrete state keeps the
loop going and a second model call is made. -/
theorem C1_completion_detector_witness :
    (∃ st', stepTurn (fun _ _ => .ok ⟨"hi\n", "", 0, false⟩) ⟨5, false, "/r"⟩
        ⟨[], ⟨0, 0, "m"⟩,
          [.reply [.shell "echo hi"] 0, .reply [.shell "echo hi"] 0], [], ""⟩
      = .cont st')
    ∧ (⟨[], ⟨0, 0, "m"⟩,
          [.reply [.shell "echo hi"] 0, .reply [.shell "echo hi"] 0], [], ""⟩
        : LoopState).telemetry.calls_made + 2
      ≤ (runFrom (fun _ _ => .ok ⟨"hi\n", "", 0, false⟩) ⟨5, false, "/r"⟩ (0 + 2)
          ⟨[], ⟨0, 0, "m"⟩,
            [.reply [.shell "echo hi"] 0, .reply [.shell "echo hi"] 0], [], ""⟩
        ).1.telemetry.calls_made :=
  C1_completion_detector.2.2.2 (fun _ _ => .ok ⟨"hi\n", "", 0, false⟩)
    ⟨5, false, "/r"⟩
    ⟨[], ⟨0, 0, "m"⟩,
      [.reply [.shell "echo hi"] 0, .reply [.shell "echo hi"] 0], [], ""⟩
    0 [.shell "echo hi"] [.shell "echo hi"] 0 0 [] "echo hi" []
    ⟨"hi\n", "", 0, false⟩ rfl rfl rfl rfl (by decide)

/-- Counterexample for C2: at a concrete input the model query fails, yet
`CodingAgent.generate_code` (`src/nano_code/agent.py` lines 211–218) surfaces
no terminal error — it silently returns the template produced by the basic
(non-model) path, exactly the fallback the claim denies. -/
theorem C2_counterexample :
    (fun _ _ => (.error "OpenAI API error: boom" : Except String String))
        "create a function to add numbers" "python"
      = .error "OpenAI API error: boom"
    ∧ CodingAgent.generate_code ⟨true, some ⟨"sk-key", "gpt-5-mini"⟩⟩
        (fun _ _ => .error "OpenAI API error: boom")
        "create a function to add numbers" "python"
      = "def create_function_add():\n    \"\"\"create a function to add numbers\"\"\"\n    pass\n"
    ∧ CodingAgent.generate_code ⟨true, some ⟨"sk-key", "gpt-5-mini"⟩⟩
        (fun _ _ => .error "OpenAI API error: boom")
        "create a function to add numbers" "python"
      = CodingAgent.generate_code ⟨false, none⟩
          (fun _ _ => .error "OpenAI API error: boom")
          "create a function to add numbers" "python" := by
  refine ⟨rfl, by decide, by decide⟩

/-- C2 (amended): in the source `CodingAgent`, a failed model query is not a
terminal error — `generate_code` and `analyze_file` catch the exception and
fall back to the basic non-model path; in the spec's redesigned agent loop a
model failure terminates the run immediately as `ModelError` with no retry,
no further messages, and no fallback, and only `ModelError` and
`EnvironmentError` (plus the intended `Submitted`/`Exhausted`/`Cancelled`)
appear as loop exit statuses. -/
theorem C2_model_failure_amended :
    (∀ (env : EnvFun) (cfg : Config) (st : LoopState) (msg : String)
        (rest : List ModelStep) (n : Nat),
        st.modelScript = .failure msg :: rest →
        runFrom env cfg (n + 1) st
          = ({ st with modelScript := rest }, ⟨"ModelError", msg⟩))
    ∧ (∀ (ag : CodingAgent) (ai : AiCall) (desc lang e : String),
        ag.use_openai = true → ag.openai_client.isSome = true →
        ai desc lang = .error e →
        CodingAgent.generate_code ag ai desc lang
          = CodingAgent.generate_basic desc lang)
    ∧ (∀ (ag : CodingAgent) (ai : AiCall) (generic : GenericAnalyzer)
        (fs : FileSys) (parse : PyParse) (path content e : String),
        ag.use_openai = true → ag.openai_client.isSome = true →
        fs path = .text content → ai content path = .error e →
        CodingAgent.analyze_file ag ai generic fs parse path
          = CodingAgent.analyze_file ⟨false, none⟩ ai generic fs parse path) := by
  refine ⟨?_, ?_, ?_⟩
  · intro env cfg st msg rest n hs
    show (match stepTurn env cfg st with
          | .done st' outcome => (st', outcome)
          | .cont st' => runFrom env cfg n st') = _
    have hstep : stepTurn env cfg st
        = .done { st with modelScript := rest } ⟨"ModelError", msg⟩ := by
      unfold stepTurn
      rw [hs]
    rw [hstep]
  · intro ag ai desc lang e huse hsome hai
    unfold CodingAgent.generate_code
    rw [huse, hsome, hai]
    rfl
  · intro ag ai generic fs parse path content e huse hsome hfs hai
    unfold CodingAgent.analyze_file
    rw [hfs]
    dsimp only
    rw [huse, hsome, hai]
    rfl

/-- Witness for C2's amended theorem: a scripted model failure at a concrete
state ends the run at once with the `ModelError` outcome. -/
theorem C2_model_failure_amended_witness :
    runFrom (fun _ _ => .ok ⟨"", "", 0, false⟩) ⟨3, false, "/r"⟩ (0 + 1)
        ⟨[], ⟨0, 0, "m"⟩, [.failure "boom"], [], ""⟩
      = (⟨[], ⟨0, 0, "m"⟩, [], [], ""⟩, ⟨"ModelError", "boom"⟩) :=
  C2_model_failure_amended.1 (fun _ _ => .ok ⟨"", "", 0, false⟩)
    ⟨3, false, "/r"⟩ ⟨[], ⟨0, 0, "m"⟩, [.failure "boom"], [], ""⟩
    "boom" [] 0 rfl

/-- C3: every successful model query increments the call counter by exactly
one and adds the charged (non-negative) cost; across a whole run the
accumulated cost is non-decreasing and the counters are never reset, so a
failure-free run from a fresh port satisfies `calls_made + unconsumed = N`
for a script of `N` replies — in particular `calls_made = N` once the script
is consumed. -/
theorem C3_telemetry (env : EnvFun) (cfg : Config) :
    (∀ (st : LoopState) (parts : List ReplyPart) (c : ℚ) (rest : List ModelStep),
        (recordReply st parts c rest).telemetry.calls_made
            = st.telemetry.calls_made + 1
          ∧ (recordReply st parts c rest).telemetry.accumulated_cost
            = st.telemetry.accumulated_cost + c)
    ∧ (∀ (fuel : Nat) (st : LoopState), costsNonneg st.modelScript →
        st.telemetry.accumulated_cost
          ≤ (runFrom env cfg fuel st).1.telemetry.accumulated_cost)
    ∧ (∀ (fuel : Nat) (st : LoopState),
        st.telemetry.calls_made
          ≤ (runFrom env cfg fuel st).1.telemetry.calls_made)
    ∧ (∀ (script : List ModelStep) (gate : List Decision) (task : String),
        noFailure script →
        (run env cfg script gate task).1.telemetry.calls_made
            + (run env cfg script gate task).1.modelScript.length
          = script.length) := by
  refine ⟨?_, runFrom_cost env cfg, runFrom_calls env cfg, ?_⟩
  · intro st parts c rest
    exact ⟨rfl, rfl⟩
  · intro script gate task h
    unfold run
    rw [runFrom_calls_len env cfg cfg.max_turns _ h]
    simp

/-- Witness for C3: a two-reply script, fully consumed by a concrete run,
yields `calls_made = 2` with no unconsumed steps, and the accumulated cost
did not decrease. -/
theorem C3_telemetry_witness :
    ((0 : ℚ)
        ≤ (runFrom (fun _ _ => .ok ⟨"hi\n", "", 0, false⟩) ⟨3, false, "/r"⟩ 3
            ⟨[], ⟨0, 0, "m"⟩,
              [.reply [.shell "echo hi"] 1, .reply [.shell "echo hi"] 2], [],
              ""⟩).1.telemetry.accumulated_cost)
    ∧ (run (fun _ _ => .ok ⟨"hi\n", "", 0, false⟩) ⟨3, false, "/r"⟩
          [.reply [.shell "echo hi"] 1, .reply [.shell "echo hi"] 2] []
          "task").1.telemetry.calls_made
        + (run (fun _ _ => .ok ⟨"hi\n", "", 0, false⟩) ⟨3, false, "/r"⟩
            [.reply [.shell "echo hi"] 1, .reply [.shell "echo hi"] 2] []
            "task").1.modelScript.length
      = 2 :=
  ⟨(C3_telemetry (fun _ _ => .ok ⟨"hi\n", "", 0, false⟩) ⟨3, false, "/r"⟩).2.1 3
      ⟨[], ⟨0, 0, "m"⟩,
        [.reply [.shell "echo hi"] 1, .reply [.shell "echo hi"] 2], [], ""⟩
      (by unfold costsNonneg; decide),
    (C3_telemetry (fun _ _ => .ok ⟨"hi\n", "", 0, false⟩) ⟨3, false, "/r"⟩).2.2.2
      [.reply [.shell "echo hi"] 1, .reply [.shell "echo hi"] 2] [] "task"
      (by unfold noFailure; decide)⟩

/-- C4: running the agent on a task always returns the `(exit_status,
result)` pair, and for every terminal state the `exit_status` is one of the
five human-readable labels (in particular it is never the silent empty
string); the same holds for the loop started from any state. -/
theorem C4_run_outcome (env : EnvFun) (cfg : Config) :
    (∀ (script : List ModelStep) (gate : List Decision) (task : String),
        (run env cfg script gate task).2.exit_status ∈ exitLabels
          ∧ (run env cfg script gate task).2.exit_status ≠ "")
    ∧ (∀ (fuel : Nat) (st : LoopState),
        (runFrom env cfg fuel st).2.exit_status ∈ exitLabels) := by
  refine ⟨?_, runFrom_label env cfg⟩
  intro script gate task
  have h := runFrom_label env cfg cfg.max_turns
    ⟨[⟨.system, systemPrompt⟩, ⟨.user, task⟩], ⟨0, 0, defaultModelId⟩,
      script, gate, ""⟩
  have h' : (run env cfg script gate task).2.exit_status ∈ exitLabels := h
  refine ⟨h', ?_⟩
  intro hempty
  rw [hempty] at h'
  simp [exitLabels] at h'

/-- C5: a reply with exactly one fenced shell block extracts that block's
command verbatim (no warning); a reply whose blocks are `A` then `B` (and
possibly more) extracts `A` with the warning annotation set; a reply with no
fenced shell block extracts no action and the entire reply text as the
thought. -/
theorem C5_extractor (root : String) :
    (∀ (pre post : List ReplyPart) (cmd : String),
        shellCommands pre = [] → shellCommands post = [] →
        extract root (pre ++ .shell cmd :: post)
          = ⟨render (pre ++ .shell cmd :: post),
              some ⟨cmd, root, fencedSpan cmd⟩, false⟩)
    ∧ (∀ (parts : List ReplyPart) (A B : String) (cs : List String),
        shellCommands parts = A :: B :: cs →
        (extract root parts).action = some ⟨A, root, fencedSpan A⟩
          ∧ (extract root parts).warning = true)
    ∧ (∀ parts : List ReplyPart, shellCommands parts = [] →
        extract root parts = ⟨render parts, none, false⟩) := by
  refine ⟨?_, ?_, ?_⟩
  · intro pre post cmd hpre hpost
    have hsc : shellCommands (pre ++ .shell cmd :: post) = [cmd] := by
      unfold shellCommands at hpre hpost ⊢
      rw [List.filterMap_append, hpre]
      simpa using hpost
    rw [extract_action_cons root _ cmd [] hsc]
    rfl
  · intro parts A B cs h
    rw [extract_action_cons root parts A (B :: cs) h]
    exact ⟨rfl, rfl⟩
  · intro parts h
    unfold extract
    rw [h]

/-- Witness for C4: a concrete run (empty model script) terminates with the
`ModelError` label, which is in the label list and non-empty. -/
theorem C4_run_outcome_witness :
    (run (fun _ _ => .ok ⟨"", "", 0, false⟩) ⟨1, false, "/r"⟩ [] [] "t").2.exit_status
        ∈ exitLabels
      ∧ (run (fun _ _ => .ok ⟨"", "", 0, false⟩) ⟨1, false, "/r"⟩ [] []
          "t").2.exit_status ≠ "" :=
  (C4_run_outcome (fun _ _ => .ok ⟨"", "", 0, false⟩) ⟨1, false, "/r"⟩).1 [] [] "t"

/-- Witness for C5: concrete one-block, two-block and zero-block replies. -/
theorem C5_extractor_witness :
    extract "/r" [.text "a\n", .shell "echo one", .text "b\n"]
        = ⟨render [.text "a\n", .shell "echo one", .text "b\n"],
            some ⟨"echo one", "/r", fencedSpan "echo one"⟩, false⟩
    ∧ ((extract "/r" [.shell "A", .text "mid", .shell "B"]).action
          = some ⟨"A", "/r", fencedSpan "A"⟩
        ∧ (extract "/r" [.shell "A", .text "mid", .shell "B"]).warning = true)
    ∧ extract "/r" [.text "no blocks here"]
        = ⟨render [.text "no blocks here"], none, false⟩ :=
  ⟨(C5_extractor "/r").1 [.text "a\n"] [.text "b\n"] "echo one" rfl rfl,
    (C5_extractor "/r").2.1 [.shell "A", .text "mid", .shell "B"] "A" "B" [] rfl,
    (C5_extractor "/r").2.2 [.text "no blocks here"] rfl⟩

/-- C6: the environment port never raises for a completed process whatever
its exit code (a failing shell command is ordinary data), fails with an
`EnvironmentError` exactly when execution could not be attempted at all, and
sets `truncated = true` whenever the captured stdout exceeds the size
ceiling. -/
theorem C6_environment_port :
    (∀ (limit : Nat) (out err : String) (code : Int),
        Environment.execute limit (.completed out err code)
          = .ok (boundedResult limit out err code))
    ∧ (∀ (limit : Nat) (p : ProcOutcome) (msg : String),
        Environment.execute limit p = .error msg ↔ p = .spawnFailure msg)
    ∧ (∀ (limit : Nat) (out err : String) (code : Int),
        limit < out.data.length →
        (boundedResult limit out err code).truncated = true) := by
  refine ⟨fun _ _ _ _ => rfl, ?_, ?_⟩
  · intro limit p msg
    cases p with
    | completed out err code =>
        simp [Environment.execute]
    | spawnFailure m =>
        simp [Environment.execute]
  · intro limit out err code h
    have h' : limit < out.length := h
    simp [boundedResult, truncateText, h']

/-- Witness for C6: a 5-character stdout against a ceiling of 3 comes back
truncated. -/
theorem C6_environment_port_witness :
    (3 : Nat) < ("hello" : String).data.length
      ∧ (boundedResult 3 "hello" "" 2).truncated = true :=
  ⟨by decide, C6_environment_port.2.2 3 "hello" "" 2 (by decide)⟩

/-- C7: an operator decline never terminates the loop: the only change is
that the assistant reply and exactly one synthetic observation stating the
user declined are appended (and the decline decision is consumed), the
extracted action is not executed (the step's outcome is the same for every
environment), and the loop re-enters `AWAITING_REPLY`. -/
theorem C7_decline_continues (env : EnvFun) (cfg : Config) (st : LoopState)
    (parts : List ReplyPart) (c : ℚ) (rest : List ModelStep)
    (cmd : String) (cmds : List String) (ds : List Decision)
    (hs : st.modelScript = .reply parts c :: rest)
    (hcmd : shellCommands parts = cmd :: cmds)
    (hgate : cfg.confirm_gate = true)
    (hdec : st.gateScript = .decline :: ds) :
    stepTurn env cfg st
      = .cont ⟨st.messages ++ [⟨.assistant, render parts⟩, declineObservation],
          bumpTelemetry st.telemetry c, rest, ds, render parts⟩ := by
  unfold stepTurn
  rw [hs]
  dsimp only
  unfold extractPhase
  rw [extract_action_cons cfg.root parts cmd cmds hcmd]
  dsimp only
  unfold confirmPhase popGate
  rw [hgate]
  dsimp only
  rw [show (recordReply st parts c rest).gateScript = .decline :: ds from hdec]
  dsimp only
  simp [appendMsg, recordReply]

/-- Witness for C7: a concrete declined action appends the assistant reply
and the decline observation and continues. -/
theorem C7_decline_continues_witness :
    stepTurn (fun _ _ => .ok ⟨"hi\n", "", 0, false⟩) ⟨5, true, "/r"⟩
        ⟨[], ⟨0, 0, "m"⟩, [.reply [.shell "rm -rf tmp"] 1], [.decline], ""⟩
      = .cont ⟨([] : List Message)
            ++ [⟨.assistant, render [.shell "rm -rf tmp"]⟩, declineObservation],
          bumpTelemetry ⟨0, 0, "m"⟩ 1, [], [], render [.shell "rm -rf tmp"]⟩ :=
  C7_decline_continues (fun _ _ => .ok ⟨"hi\n", "", 0, false⟩) ⟨5, true, "/r"⟩
    ⟨[], ⟨0, 0, "m"⟩, [.reply [.shell "rm -rf tmp"] 1], [.decline], ""⟩
    [.shell "rm -rf tmp"] 1 [] "rm -rf tmp" [] [] rfl rfl rfl rfl

/-- C8: the conversation is append-only: every single loop step and every
whole run only extend the message sequence at its end (the old sequence is a
prefix of the new one), so no message is ever mutated or removed. -/
theorem C8_messages_append_only (env : EnvFun) (cfg : Config) :
    (∀ st : LoopState, st.messages <+: (stepTurn env cfg st).state.messages)
    ∧ (∀ (fuel : Nat) (st : LoopState),
        st.messages <+: (runFrom env cfg fuel st).1.messages) :=
  ⟨stepTurn_state_messages env cfg, runFrom_messages env cfg⟩

/-- C9: constructing a `CodingAgent` with `use_openai = true` but no API key
(neither passed nor in the environment, Python-falsy either way) does not
raise: the `ValueError` is caught and the agent comes back in basic mode
(`use_openai = false`, `openai_client = none`), and both `analyze_file` and
`generate_code` then never consult the model — their results are the same
for every model oracle. -/
theorem C9_no_key_fallback (api_key env_key : Option String)
    (h1 : truthy api_key = false) (h2 : truthy env_key = false) :
    CodingAgent.init true api_key env_key = ⟨false, none⟩
    ∧ (∀ (ai1 ai2 : AiCall) (generic : GenericAnalyzer) (fs : FileSys)
        (parse : PyParse) (path : String),
        CodingAgent.analyze_file (CodingAgent.init true api_key env_key) ai1
            generic fs parse path
          = CodingAgent.analyze_file (CodingAgent.init true api_key env_key) ai2
              generic fs parse path)
    ∧ (∀ (ai1 ai2 : AiCall) (desc lang : String),
        CodingAgent.generate_code (CodingAgent.init true api_key env_key) ai1
            desc lang
          = CodingAgent.generate_code (CodingAgent.init true api_key env_key)
              ai2 desc lang) := by
  have hclient : OpenAIClient.init api_key env_key
      = .error "OpenAI API key not found. Set OPENAI_API_KEY environment variable or pass api_key parameter." := by
    unfold OpenAIClient.init pyOr
    rw [h1]
    simp only [Bool.false_eq_true, if_false]
    cases env_key with
    | none => rfl
    | some s =>
        have : s.isEmpty = true := by
          simpa [truthy] using h2
        simp [this]
  have hinit : CodingAgent.init true api_key env_key = ⟨false, none⟩ := by
    unfold CodingAgent.init
    rw [hclient]
    rfl
  refine ⟨hinit, ?_, ?_⟩
  · intro ai1 ai2 generic fs parse path
    rw [hinit]
    unfold CodingAgent.analyze_file
    cases fs path <;> rfl
  · intro ai1 ai2 desc lang
    rw [hinit]
    rfl

/-- Witness for C9: with no key passed and no key in the environment the
constructed agent is in basic mode and `generate_code` ignores the model
oracle. -/
theorem C9_no_key_fallback_witness :
    CodingAgent.init true none none = ⟨false, none⟩
    ∧ CodingAgent.generate_code (CodingAgent.init true none none)
          (fun _ _ => .ok "model text") "make a tool" "python"
        = CodingAgent.generate_code (CodingAgent.init true none none)
            (fun _ _ => .error "down") "make a tool" "python" :=
  ⟨(C9_no_key_fallback none none rfl rfl).1,
    (C9_no_key_fallback none none rfl rfl).2.2
      (fun _ _ => .ok "model text") (fun _ _ => .error "down")
      "make a tool" "python"⟩

/-- C10: in basic mode `analyze_file` is total over its error cases: a
missing path returns exactly `"File {file_path} does not exist."`, unreadable
content returns its error string, and Python source that fails to parse
returns the formatted analysis whose `issues` list records the syntax error
instead of propagating the exception. -/
theorem C10_analyze_file_total (ag : CodingAgent) (hb : ag.use_openai = false) :
    (∀ (ai : AiCall) (generic : GenericAnalyzer) (fs : FileSys)
        (parse : PyParse) (path : String),
        fs path = .missing →
        CodingAgent.analyze_file ag ai generic fs parse path
          = "File " ++ path ++ " does not exist.")
    ∧ (∀ (ai : AiCall) (generic : GenericAnalyzer) (fs : FileSys)
        (parse : PyParse) (path : String),
        fs path = .binary →
        CodingAgent.analyze_file ag ai generic fs parse path
          = "Cannot read " ++ path ++ ": not a text file or encoding issue.")
    ∧ (∀ (ai : AiCall) (generic : GenericAnalyzer) (fs : FileSys)
        (parse : PyParse) (path content e : String),
        fs path = .text content → parse content = .error e →
        (extOf path = "python" ∨ extOf path = "py") →
        CodingAgent.analyze_file ag ai generic fs parse path
          = CodingAgent.format_analysis
              ⟨"Python", splitlinesCount content, [], [], [], "low",
                ["Syntax error: " ++ e]⟩ path) := by
  refine ⟨?_, ?_, ?_⟩
  · intro ai generic fs parse path hfs
    unfold CodingAgent.analyze_file
    rw [hfs]
  · intro ai generic fs parse path hfs
    unfold CodingAgent.analyze_file
    rw [hfs]
  · intro ai generic fs parse path content e hfs hparse hext
    unfold CodingAgent.analyze_file
    rw [hfs]
    dsimp only
    rw [hb]
    have hpy : CodingAgent.analyze_python parse content
        = ⟨"Python", splitlinesCount content, [], [], [], "low",
            ["Syntax error: " ++ e]⟩ := by
      unfold CodingAgent.analyze_python
      rw [hparse]
    rw [if_pos hext, hpy]
    rfl

/-- Witness for C10: a missing path, an unreadable file and a syntactically
broken `.py` file at concrete inputs. -/
theorem C10_analyze_file_total_witness :
    CodingAgent.analyze_file ⟨false, none⟩ (fun _ _ => .ok "ai")
          (fun _ _ => ⟨"Generic", 0, [], [], [], "unknown", []⟩)
          (fun _ => .missing) (fun _ => .ok []) "gone.py"
        = "File " ++ "gone.py" ++ " does not exist."
    ∧ CodingAgent.analyze_file ⟨false, none⟩ (fun _ _ => .ok "ai")
          (fun _ _ => ⟨"Generic", 0, [], [], [], "unknown", []⟩)
          (fun _ => .binary) (fun _ => .ok []) "blob.py"
        = "Cannot read " ++ "blob.py" ++ ": not a text file or encoding issue."
    ∧ CodingAgent.analyze_file ⟨false, none⟩ (fun _ _ => .ok "ai")
          (fun _ _ => ⟨"Generic", 0, [], [], [], "unknown", []⟩)
          (fun _ => .text "def broken(:\n") (fun _ => .error "invalid syntax")
          "bad.py"
        = CodingAgent.format_analysis
            ⟨"Python", splitlinesCount "def broken(:\n", [], [], [], "low",
              ["Syntax error: " ++ "invalid syntax"]⟩ "bad.py" :=
  ⟨(C10_analyze_file_total ⟨false, none⟩ rfl).1 (fun _ _ => .ok "ai")
      (fun _ _ => ⟨"Generic", 0, [], [], [], "unknown", []⟩)
      (fun _ => .missing) (fun _ => .ok []) "gone.py" rfl,
    (C10_analyze_file_total ⟨false, none⟩ rfl).2.1 (fun _ _ => .ok "ai")
      (fun _ _ => ⟨"Generic", 0, [], [], [], "unknown", []⟩)
      (fun _ => .binary) (fun _ => .ok []) "blob.py" rfl,
    (C10_analyze_file_total ⟨false, none⟩ rfl).2.2 (fun _ _ => .ok "ai")
      (fun _ _ => ⟨"Generic", 0, [], [], [], "unknown", []⟩)
      (fun _ => .text "def broken(:\n") (fun _ => .error "invalid syntax")
      "bad.py" "def broken(:\n" "invalid syntax" rfl rfl
      (Or.inr (by decide))⟩

end NanoCode
